import Mathlib

/-!
# Verification of the storefront backend (api/src/index.ts, api/src/auth.ts)

Shallow embedding of the Express + Prisma storefront backend.  The
relational store is modelled as in-memory lists of rows; each HTTP
handler becomes a pure function from the request payload and the
database state to a response and a new database state.  Query
parameters are modelled as already-parsed optional integers / strings,
and the bcrypt and JWT libraries are modelled by their contracts (see
the doc comments on `bcryptHash` and `signToken`).
-/

namespace Store

/-- A catalog category row: `{id, name, slug}`. -/
structure Category where
  id : String
  name : String
  slug : String
deriving Repr, DecidableEq

/-- A product row.  `stock` and `priceCents` are `Int` because the
underlying SQL integer column is signed: nothing in the schema stops a
decrement from driving `stock` below zero. -/
structure Product where
  id : String
  name : String
  slug : String
  description : String
  priceCents : Int
  imageUrl : Option String
  stock : Int
  categoryId : String
  createdAt : Nat
deriving Repr, DecidableEq

/-- An order row: `{id, userEmail, totalCents}`. -/
structure Order where
  id : Nat
  userEmail : Option String
  totalCents : Int
deriving Repr, DecidableEq

/-- An order line-item row, with the snapshot price frozen at purchase
time. -/
structure OrderItem where
  orderId : Nat
  productId : String
  quantity : Int
  priceCents : Int
deriving Repr, DecidableEq

/-- One cart entry of a checkout request body: `{productId, quantity}`. -/
structure CartItem where
  productId : String
  quantity : Int
deriving Repr, DecidableEq

/-- The database state shared by all handlers. -/
structure Db where
  categories : List Category
  products : List Product
  orders : List Order
  orderItems : List OrderItem
  nextOrderId : Nat
deriving Repr, DecidableEq

/-- `prisma.product.findMany({where: {id: {in: ids}}})` followed by
`map.get(id)`: look a product up by id. -/
def findProduct (ps : List Product) (pid : String) : Option Product :=
  ps.find? (fun p => p.id == pid)

/-- Result of `POST /api/v1/checkout`: either `res.status(400).json({error})`
or `res.json({ok: true, orderId, totalCents})`. -/
inductive CheckoutResult where
  | error (status : Nat) (message : String)
  | ok (orderId : Nat) (totalCents : Int)
deriving Repr, DecidableEq

/-- Whether a checkout response is an error response. -/
def CheckoutResult.isError : CheckoutResult → Bool
  | .error _ _ => true
  | .ok _ _ => false

/-- The validation loop of `POST /api/v1/checkout` (index.ts lines
110–115): for each item in order, fail on a missing product, a quantity
below 1, or insufficient stock; `none` means all checks passed.  `snap`
is the product snapshot read by the single `findMany` before the loop. -/
def validateItems (snap : List Product) : List CartItem → Option String
  | [] => none
  | i :: rest =>
    match findProduct snap i.productId with
    | none => some ("Product not found: " ++ i.productId)
    | some p =>
      if i.quantity < 1 then some "Invalid quantity"
      else if p.stock < i.quantity then some ("Not enough stock for " ++ p.name)
      else validateItems snap rest

/-- `map.get(i.productId)!.priceCents`: the price of a cart line in the
validation snapshot.  The `.getD 0` branch is unreachable after a
successful validation, mirroring the non-null assertion `!` in the
source. -/
def snapPrice (snap : List Product) (i : CartItem) : Int :=
  ((findProduct snap i.productId).map Product.priceCents).getD 0

/-- `totalCents = items.reduce((sum, i) => sum + map.get(i.productId)!.priceCents * i.quantity, 0)`
(index.ts lines 117–120). -/
def totalCents (snap : List Product) (items : List CartItem) : Int :=
  items.foldl (fun sum i => sum + snapPrice snap i * i.quantity) 0

/-- `tx.product.update({where: {id}, data: {stock: {decrement: q}}})`:
decrement the stock of the product with the given id. -/
def decStock (ps : List Product) (pid : String) (q : Int) : List Product :=
  ps.map (fun p => if p.id == pid then { p with stock := p.stock - q } else p)

/-- `tx.orderItem.create({data: {orderId, productId, quantity, priceCents}})`:
the line-item row written for one cart entry, with the snapshot price. -/
def mkOrderItem (snap : List Product) (oid : Nat) (i : CartItem) : OrderItem :=
  { orderId := oid, productId := i.productId, quantity := i.quantity,
    priceCents := snapPrice snap i }

/-- The body of the `prisma.$transaction` callback (index.ts lines
122–143) after the order row is created: for each item, insert an
`OrderItem` carrying the snapshot price and decrement the product's
stock.  Crucially, the snapshot `snap` is the one captured before the
transaction: the stock is *not* re-checked here. -/
def commitItems (snap : List Product) (oid : Nat) : List CartItem → Db → Db
  | [], db => db
  | i :: rest, db =>
    commitItems snap oid rest
      { db with
        orderItems := db.orderItems ++ [mkOrderItem snap oid i]
        products := decStock db.products i.productId i.quantity }

/-- The whole `prisma.$transaction` of checkout: create the order row,
then run `commitItems`.  Returns the new order's id with the new state. -/
def checkoutCommit (db : Db) (email : Option String) (snap : List Product)
    (items : List CartItem) (total : Int) : Nat × Db :=
  let oid := db.nextOrderId
  let db1 : Db :=
    { db with
      orders := { id := oid, userEmail := email, totalCents := total } :: db.orders
      nextOrderId := oid + 1 }
  (oid, commitItems snap oid items db1)

/-- `POST /api/v1/checkout` run to completion with no interleaving:
empty-cart check, snapshot read, validation loop, total computation,
transactional commit. -/
def checkout (db : Db) (email : Option String) (items : List CartItem) : CheckoutResult × Db :=
  if items.isEmpty then (.error 400 "No items", db)
  else
    let snap := db.products
    match validateItems snap items with
    | some msg => (.error 400 msg, db)
    | none =>
      let total := totalCents snap items
      let (oid, db') := checkoutCommit db email snap items total
      (.ok oid total, db')

/-- One checkout request suspended at its `await` points: `phase1`
performs the snapshot read and validation (everything before
`prisma.$transaction`), producing either the error response or the
captured snapshot and total. -/
def checkoutPhase1 (db : Db) (items : List CartItem) : Except CheckoutResult (List Product × Int) :=
  if items.isEmpty then .error (.error 400 "No items")
  else
    let snap := db.products
    match validateItems snap items with
    | some msg => .error (.error 400 msg)
    | none => .ok (snap, totalCents snap items)

/-- `phase2` of a suspended checkout: the `prisma.$transaction`, run
against whatever the database state is when the event loop resumes the
handler, but using the snapshot captured in phase 1. -/
def checkoutPhase2 (db : Db) (email : Option String) (items : List CartItem)
    (snap : List Product) (total : Int) : CheckoutResult × Db :=
  let (oid, db') := checkoutCommit db email snap items total
  (.ok oid total, db')

/-- Two concurrent checkout requests in the interleaving the
single-threaded event loop permits: both handlers complete their
`findMany` + validation (phase 1) against the same initial state before
either runs its `$transaction` (phase 2).  Each `await` in the handler
is a yield point, so this schedule is realizable. -/
def twoCheckoutsConcurrent (db : Db) (e₁ e₂ : Option String)
    (items₁ items₂ : List CartItem) : CheckoutResult × CheckoutResult × Db :=
  match checkoutPhase1 db items₁, checkoutPhase1 db items₂ with
  | .error r₁, .error r₂ => (r₁, r₂, db)
  | .error r₁, .ok (s₂, t₂) =>
    let (r₂, db₂) := checkoutPhase2 db e₂ items₂ s₂ t₂
    (r₁, r₂, db₂)
  | .ok (s₁, t₁), .error r₂ =>
    let (r₁, db₁) := checkoutPhase2 db e₁ items₁ s₁ t₁
    (r₁, r₂, db₁)
  | .ok (s₁, t₁), .ok (s₂, t₂) =>
    let (r₁, db₁) := checkoutPhase2 db e₁ items₁ s₁ t₁
    let (r₂, db₂) := checkoutPhase2 db₁ e₂ items₂ s₂ t₂
    (r₁, r₂, db₂)

/-- The stock of product `pid` in a product table, when present. -/
def stockOf (ps : List Product) (pid : String) : Option Int :=
  (findProduct ps pid).map Product.stock

/-- `toLowerCase()` on the ASCII range, written over the character
list so that it evaluates by kernel reduction. -/
def strToLower (s : String) : String :=
  String.mk (s.toList.map Char.toLower)

/-! ## Catalog listing (`GET /api/v1/products`, index.ts lines 33–78) -/

/-- The query parameters of `GET /api/v1/products`, already parsed:
`page` and `limit` model `Number(req.query.page)` on numeric input. -/
structure ProductsQuery where
  q : Option String
  category : Option String
  page : Option Int
  limit : Option Int

/-- The JSON payload returned by the products listing. -/
structure ProductsPage where
  items : List Product
  page : Int
  limit : Int
  total : Nat
  pageCount : Nat

/-- Whether `needle` occurs as a contiguous run inside `hay` (both lists
of characters). -/
def listContainsSub (hay needle : List Char) : Bool :=
  match hay with
  | [] => needle.isEmpty
  | _ :: t => needle.isPrefixOf hay || listContainsSub t needle

/-- Prisma `{contains: q, mode: 'insensitive'}`: case-insensitive
substring test. -/
def containsInsensitive (hay needle : String) : Bool :=
  listContainsSub (strToLower hay).toList (strToLower needle).toList

/-- The `where.OR` text filter: `q` matches the name or the description
case-insensitively. -/
def textMatches (q : String) (p : Product) : Bool :=
  containsInsensitive p.name q || containsInsensitive p.description q

/-- The category filter: the product's category's slug or name equals
the requested string case-insensitively. -/
def categoryMatches (cats : List Category) (c : String) (p : Product) : Bool :=
  match cats.find? (fun k => k.id == p.categoryId) with
  | none => false
  | some k => strToLower k.slug == strToLower c || strToLower k.name == strToLower c

/-- The combined `where` clause built by the handler.  A trimmed-empty
`q` or `category` is falsy in JS, so it adds no filter. -/
def productFilter (cats : List Category) (q category : Option String) (p : Product) : Bool :=
  (match q.map String.trim with
   | some s => if s == "" then true else textMatches s p
   | none => true) &&
  (match category.map String.trim with
   | some s => if s == "" then true else categoryMatches cats s p
   | none => true)

/-- Insert a product into a list sorted by `createdAt` descending. -/
def insertByCreatedAt (p : Product) : List Product → List Product
  | [] => [p]
  | x :: xs => if x.createdAt ≤ p.createdAt then p :: x :: xs else x :: insertByCreatedAt p xs

/-- `orderBy: {createdAt: 'desc'}` modelled as an insertion sort. -/
def sortByCreatedAtDesc : List Product → List Product
  | [] => []
  | p :: ps => insertByCreatedAt p (sortByCreatedAtDesc ps)

/-- `GET /api/v1/products`: clamp paging parameters, filter, count,
sort, and slice one page. -/
def listProducts (db : Db) (query : ProductsQuery) : ProductsPage :=
  let page : Int := max 1 (query.page.getD 1)
  let limit : Int := min 24 (max 1 (query.limit.getD 9))
  let skip : Nat := ((page - 1) * limit).toNat
  let matching := db.products.filter (productFilter db.categories query.q query.category)
  let total := matching.length
  let items := ((sortByCreatedAtDesc matching).drop skip).take limit.toNat
  { items := items, page := page, limit := limit, total := total,
    pageCount := max 1 ((total + limit.toNat - 1) / limit.toNat) }

/-! ## Slug normalization (`makeSlug`, index.ts lines 28–30) -/

/-- A character kept by `makeSlug`: `[a-z0-9]` after lowercasing. -/
def slugChar (c : Char) : Bool :=
  ('a' ≤ c && c ≤ 'z') || ('0' ≤ c && c ≤ '9')

/-- `replace(/[^a-z0-9]+/g, '-')`: each maximal run of non-slug
characters becomes one `'-'`.  The flag records whether the previous
character belonged to such a run. -/
def collapseAux : Bool → List Char → List Char
  | _, [] => []
  | inRun, c :: cs =>
    if slugChar c then c :: collapseAux false cs
    else if inRun then collapseAux true cs
    else '-' :: collapseAux true cs

/-- Collapse every run of non-slug characters to a single `'-'`. -/
def collapseRuns (l : List Char) : List Char :=
  collapseAux false l

/-- The `^-` half of `replace(/(^-|-$)/g, '')`: drop one leading dash. -/
def dropLeadDash : List Char → List Char
  | [] => []
  | c :: t => if c = '-' then t else c :: t

/-- The `-$` half of `replace(/(^-|-$)/g, '')`: drop one trailing dash. -/
def dropTrailDash (l : List Char) : List Char :=
  match l.reverse with
  | [] => l
  | c :: t => if c = '-' then t.reverse else l

/-- `makeSlug` (index.ts lines 28–30): lowercase, collapse non-slug
runs to single dashes, trim a boundary dash at each end.  `Char.toLower`
models `toLowerCase` on the ASCII range. -/
def makeSlug (s : String) : String :=
  String.mk (dropTrailDash (dropLeadDash (collapseRuns (s.toList.map Char.toLower))))

/-! ## Auth (`api/src/auth.ts` and the `/api/v1/auth/*` handlers) -/

/-- A user row. -/
structure User where
  id : Nat
  email : String
  passwordHash : String
  role : String
deriving Repr, DecidableEq

/-- The user table plus the id sequence. -/
structure AuthDb where
  users : List User
  nextUserId : Nat
deriving Repr, DecidableEq

/-- Modelled contract of `bcrypt.hash(password, 10)`: an irreversible
salted hash, abstracted to a deterministic injective tagging so that
`bcryptCompare p (bcryptHash q)` succeeds exactly when `p = q`. -/
def bcryptHash (password : String) : String :=
  "$2b$10$" ++ password

/-- Modelled contract of `bcrypt.compare(password, hash)`. -/
def bcryptCompare (password hash : String) : Bool :=
  hash == bcryptHash password

/-- Modelled contract of `jwt.sign({uid}, SECRET)` (auth.ts line 9): a
signed token is opaque outside this module and binds exactly the user
id; `jwt.verify` recovers `uid` from it.  Expiry and forgery are out of
scope of the claims below. -/
structure Token where
  uid : Nat
deriving Repr, DecidableEq

/-- `signToken` (auth.ts lines 9–11). -/
def signToken (userId : Nat) : Token :=
  ⟨userId⟩

/-- `prisma.user.findUnique({where: {email}})` preceded by the
handlers' `email.toLowerCase()`. -/
def findUserByEmail (db : AuthDb) (email : String) : Option User :=
  db.users.find? (fun u => u.email == strToLower email)

/-- A response of the register/login handlers: an error status with a
message, or the user payload together with the session cookie set. -/
inductive AuthResult where
  | failure (status : Nat) (error : String)
  | success (id : Nat) (email : String) (role : String) (cookie : Token)
deriving Repr, DecidableEq

/-- `POST /api/v1/auth/register` (index.ts lines 190–203).  The new row
is stored at the front of the table; lookups are by the unique email or
id, so the position does not matter. -/
def register (db : AuthDb) (email password : String) : AuthResult × AuthDb :=
  if email == "" || password == "" then
    (.failure 400 "Email and password required", db)
  else if (findUserByEmail db email).isSome then
    (.failure 400 "Email already in use", db)
  else
    let u : User :=
      { id := db.nextUserId, email := strToLower email,
        passwordHash := bcryptHash password, role := "USER" }
    (.success u.id u.email u.role (signToken u.id),
     { users := u :: db.users, nextUserId := db.nextUserId + 1 })

/-- `POST /api/v1/auth/login` (index.ts lines 206–217). -/
def login (db : AuthDb) (email password : String) : AuthResult :=
  match findUserByEmail db email with
  | none => .failure 400 "Invalid email or password"
  | some u =>
    if bcryptCompare password u.passwordHash then
      .success u.id u.email u.role (signToken u.id)
    else .failure 400 "Invalid email or password"

/-- `readUserFromReq` (auth.ts lines 28–37): a missing or invalid
cookie yields `null`; a valid token resolves to the user row with the
token's `uid`. -/
def readUserFromReq (db : AuthDb) (cookie : Option Token) : Option User :=
  match cookie with
  | none => none
  | some t => db.users.find? (fun u => u.id == t.uid)

/-! ## Admin product create / update (index.ts lines 267–307) -/

/-- A JSON field of a request body as JavaScript sees it: absent
(`undefined`), explicit `null`, or a value. -/
inductive JsVal (α : Type) where
  | undef
  | null
  | val (a : α)
deriving Repr, DecidableEq

/-- The value of a `JsVal` with a default for `undefined`/`null`,
mirroring `x || d` / `x ?? d` on non-falsy values. -/
def JsVal.getVal {α : Type} (d : α) : JsVal α → α
  | .val a => a
  | _ => d

/-- The request body of `POST /api/v1/admin/products` and
`PUT /api/v1/admin/products/:id`.  Numeric fields model
`Number(priceCents)` / `Number(stock)` on numeric input. -/
structure ProductBody where
  name : JsVal String
  slug : JsVal String
  description : JsVal String
  priceCents : JsVal Int
  imageUrl : JsVal String
  stock : JsVal Int
  categorySlug : JsVal String
deriving Repr, DecidableEq

/-- The body with every field absent. -/
def emptyBody : ProductBody :=
  { name := .undef, slug := .undef, description := .undef, priceCents := .undef,
    imageUrl := .undef, stock := .undef, categorySlug := .undef }

/-- `POST /api/v1/admin/products` (index.ts lines 267–287).  `newId`
and `now` stand for the id and `createdAt` the store generates. -/
def createProduct (cats : List Category) (body : ProductBody) (newId : String)
    (now : Nat) : Except (Nat × String) Product :=
  if (match body.name with | .val n => n == "" | _ => true)
      || (match body.priceCents with | .val _ => false | _ => true)
      || (match body.categorySlug with | .val c => c == "" | _ => true) then
    .error (400, "name, priceCents, categorySlug required")
  else
    match cats.find? (fun k => k.slug == body.categorySlug.getVal "") with
    | none => .error (400, "category not found")
    | some cat =>
      let name := body.name.getVal ""
      .ok
        { id := newId
          name := name
          slug := match body.slug with
            | .val s => if s == "" then makeSlug name else s
            | _ => makeSlug name
          description := body.description.getVal ""
          priceCents := body.priceCents.getVal 0
          imageUrl := match body.imageUrl with | .val s => some s | _ => none
          stock := body.stock.getVal 0
          categoryId := cat.id
          createdAt := now }

/-- The `data` patch of `PUT /api/v1/admin/products/:id` (index.ts
lines 293–299) applied to the stored row.  `name != null` is the JS
loose test (false for both `undefined` and `null`), while
`imageUrl !== undefined` is strict, so an explicit `null` clears the
image.  A cleared slug (`slug: ""`) re-derives from `name || ''`, i.e.
from the body's `name` field, not from the stored row. -/
def patchFields (body : ProductBody) (p : Product) : Product :=
  { p with
    name := match body.name with | .val n => n | _ => p.name
    slug := match body.slug with
      | .val s => if s == "" then makeSlug (body.name.getVal "") else s
      | _ => p.slug
    description := match body.description with | .val d => d | _ => p.description
    priceCents := match body.priceCents with | .val c => c | _ => p.priceCents
    imageUrl := match body.imageUrl with
      | .undef => p.imageUrl
      | .null => none
      | .val s => some s
    stock := match body.stock with | .val s => s | _ => p.stock }

/-- `PUT /api/v1/admin/products/:id` (index.ts lines 290–307) acting on
the stored row `p`: build the patch, resolve a truthy `categorySlug`
(failing the whole update when the category is unknown), and write. -/
def updateProduct (cats : List Category) (body : ProductBody) (p : Product) :
    Except (Nat × String) Product :=
  let patched := patchFields body p
  match body.categorySlug with
  | .val c =>
    if c == "" then .ok patched
    else
      match cats.find? (fun k => k.slug == c) with
      | none => .error (400, "category not found")
      | some cat => .ok { patched with categoryId := cat.id }
  | _ => .ok patched

/-! ## Derived quantities and concrete fixtures used by the theorems -/

/-- Total quantity of product `pid` requested across all cart lines. -/
def cartQtyOf (items : List CartItem) (pid : String) : Int :=
  ((items.filter (fun i => i.productId == pid)).map CartItem.quantity).sum

/-- What the spec's slug normalization promises of its output: only
`[a-z0-9]` and separators, no separator runs, no leading or trailing
separator. -/
def SlugNormalized (s : String) : Prop :=
  (∀ c ∈ s.toList, slugChar c = true ∨ c = '-') ∧
  List.Chain' (fun a b => ¬(a = '-' ∧ b = '-')) s.toList ∧
  s.toList.head? ≠ some '-' ∧
  s.toList.getLast? ≠ some '-'

/-- A product with 3 units in stock, used for the oversell scenarios. -/
def teeFixture : Product :=
  { id := "P1", name := "Basic Tee", slug := "basic-tee", description := "Soft cotton tee",
    priceCents := 1000, imageUrl := none, stock := 3, categoryId := "C1", createdAt := 0 }

/-- A one-product store with 3 units of `P1` in stock. -/
def dbFixture : Db :=
  { categories := [], products := [teeFixture], orders := [], orderItems := [],
    nextOrderId := 1 }

/-- The spec's worked example: `P1.stock = 5`, `P1.priceCents = 1000`. -/
def dbExample : Db :=
  { categories := [], products := [{ teeFixture with stock := 5 }], orders := [],
    orderItems := [], nextOrderId := 1 }

/-- An update body carrying only `{stock: 5}`. -/
def stockOnlyBody : ProductBody :=
  { emptyBody with stock := .val 5 }

/-- A one-user credential store for the auth witnesses. -/
def authDbFixture : AuthDb :=
  { users := [{ id := 1, email := "a@b.c", passwordHash := bcryptHash "pw", role := "USER" }],
    nextUserId := 2 }

/-- The category used by the admin witnesses. -/
def clothingCatW : Category :=
  { id := "C9", name := "Clothing", slug := "clothing" }

/-- A create body carrying name, price and category but no slug. -/
def createBodyW : ProductBody :=
  { emptyBody with
    name := .val "Basic Tee"
    priceCents := .val 1999
    categorySlug := .val "clothing" }

/-- An update body carrying only an explicitly cleared slug. -/
def clearSlugBody : ProductBody :=
  { emptyBody with slug := .val "" }

/-- The row the admin create of "Basic Tee" without a slug produces. -/
def createdTeeW : Product :=
  { id := "N1", name := "Basic Tee", slug := makeSlug "Basic Tee", description := "",
    priceCents := 1999, imageUrl := none, stock := 0, categoryId := "C9", createdAt := 5 }

/-! # Theorems -/

/-- **C1.** The claim asserts that under two concurrent checkouts each
requesting quantity `Q` with stock `S < 2Q`, at most one succeeds and
final stock stays non-negative.  The code checks stock *outside*
`prisma.$transaction` and the transaction decrements unconditionally,
so in the event-loop interleaving where both handlers validate before
either commits, both checkouts succeed (`S = 3`, `Q = 2`) and the final
stock is `-1`. -/
theorem c1_concurrent_checkouts_oversell :
    (twoCheckoutsConcurrent dbFixture none none
        [{ productId := "P1", quantity := 2 }] [{ productId := "P1", quantity := 2 }]).1 =
      CheckoutResult.ok 1 2000 ∧
    (twoCheckoutsConcurrent dbFixture none none
        [{ productId := "P1", quantity := 2 }] [{ productId := "P1", quantity := 2 }]).2.1 =
      CheckoutResult.ok 2 2000 ∧
    stockOf (twoCheckoutsConcurrent dbFixture none none
        [{ productId := "P1", quantity := 2 }] [{ productId := "P1", quantity := 2 }]).2.2.products
        "P1" = some (-1) := by
  refine ⟨rfl, rfl, rfl⟩

/-- **C2.** The claim asserts stock never goes negative for any
operation sequence, including a single checkout whose cart repeats a
productId.  Each line is validated against the same snapshot, so a cart
of two lines of quantity 2 against stock 3 passes validation and the
commit decrements twice: the checkout succeeds and stock ends at `-1`. -/
theorem c2_duplicate_line_items_negative_stock :
    (checkout dbFixture none
        [{ productId := "P1", quantity := 2 }, { productId := "P1", quantity := 2 }]).1 =
      CheckoutResult.ok 1 4000 ∧
    stockOf (checkout dbFixture none
        [{ productId := "P1", quantity := 2 }, { productId := "P1", quantity := 2 }]).2.products
        "P1" = some (-1) := by
  refine ⟨rfl, rfl⟩

/-- **C7.** Login with an unknown email and login with a known email
but wrong password return the identical status code and the identical
error message, so the response does not distinguish the two cases. -/
theorem c7_login_uniform_error (db : AuthDb) (e₁ p₁ e₂ p₂ : String) (u : User)
    (h₁ : findUserByEmail db e₁ = none)
    (h₂ : findUserByEmail db e₂ = some u)
    (h₃ : bcryptCompare p₂ u.passwordHash = false) :
    login db e₁ p₁ = AuthResult.failure 400 "Invalid email or password" ∧
    login db e₂ p₂ = AuthResult.failure 400 "Invalid email or password" ∧
    login db e₁ p₁ = login db e₂ p₂ := by
  unfold login
  rw [h₁, h₂]
  simp [h₃]

/-- Witness for **C7**: in the one-user store, a login with an unknown
email and a login with the right email and the wrong password produce
the same `400 "Invalid email or password"` response. -/
theorem c7_login_uniform_error_witness :
    login authDbFixture "x@y.z" "pw" = AuthResult.failure 400 "Invalid email or password" ∧
    login authDbFixture "A@B.C" "bad" = AuthResult.failure 400 "Invalid email or password" ∧
    login authDbFixture "x@y.z" "pw" = login authDbFixture "A@B.C" "bad" :=
  c7_login_uniform_error authDbFixture "x@y.z" "pw" "A@B.C" "bad"
    { id := 1, email := "a@b.c", passwordHash := bcryptHash "pw", role := "USER" }
    (by decide) (by decide) (by decide)

/-- **C10.** The presence test of the admin update is asymmetric:
`imageUrl` is compared with `!== undefined`, so an explicit `null`
clears the image, while the other fields use the loose `!= null` and an
explicit `null` leaves them unchanged. -/
theorem c10_null_asymmetry (cats : List Category) (p : Product) :
    updateProduct cats { emptyBody with imageUrl := .null } p =
      Except.ok { p with imageUrl := none } ∧
    updateProduct cats
      { name := .null, slug := .null, description := .null, priceCents := .null,
        imageUrl := .undef, stock := .null, categorySlug := .null } p =
      Except.ok p := by
  exact ⟨rfl, rfl⟩

/-- A passed validation means every cart line's product was found in
the snapshot. -/
theorem validateItems_none_found (snap : List Product) :
    ∀ items, validateItems snap items = none →
      ∀ i ∈ items, (findProduct snap i.productId).isSome = true := by
  intro items
  induction items with
  | nil => intro _ i hi; cases hi
  | cons a rest ih =>
    intro h i hi
    cases hfind : findProduct snap a.productId with
    | none => simp [validateItems, hfind] at h
    | some p =>
      simp only [validateItems, hfind] at h
      rcases List.mem_cons.mp hi with rfl | hmem
      · rw [hfind]; rfl
      · split_ifs at h with hq hs
        exact ih h i hmem

/-- **C3.** Every precondition is checked before any mutation: a
checkout that returns an error leaves the database exactly as it was,
and a cart containing an unknown productId always returns an error and
performs zero mutations. -/
theorem c3_validation_before_mutation (db : Db) (email : Option String)
    (items : List CartItem) :
    ((checkout db email items).1.isError = true → (checkout db email items).2 = db) ∧
    (items.any (fun i => (findProduct db.products i.productId).isNone) = true →
      (checkout db email items).1.isError = true ∧ (checkout db email items).2 = db) := by
  cases hempty : items.isEmpty with
  | true =>
    refine ⟨fun _ => ?_, fun _ => ⟨?_, ?_⟩⟩ <;>
      simp [checkout, hempty, CheckoutResult.isError]
  | false =>
    cases hv : validateItems db.products items with
    | some msg =>
      refine ⟨fun _ => ?_, fun _ => ⟨?_, ?_⟩⟩ <;>
        simp [checkout, hempty, hv, CheckoutResult.isError]
    | none =>
      constructor
      · intro habs
        exfalso
        simp [checkout, hempty, hv, CheckoutResult.isError] at habs
      · intro hany
        exfalso
        obtain ⟨i, hi, hnone⟩ := List.any_eq_true.mp hany
        have hsome := validateItems_none_found db.products items hv i hi
        rw [Option.isNone_iff_eq_none.mp hnone] at hsome
        cases hsome

/-- Witness for **C3**: a cart naming the unknown product `PX` against
the one-product store errors out and leaves the store untouched. -/
theorem c3_validation_before_mutation_witness :
    (checkout dbFixture none [{ productId := "PX", quantity := 1 }]).1.isError = true ∧
    (checkout dbFixture none [{ productId := "PX", quantity := 1 }]).2 = dbFixture :=
  (c3_validation_before_mutation dbFixture none [{ productId := "PX", quantity := 1 }]).2
    (by decide)

/-- Folding the checkout accumulator from any start adds the sum of the
line totals. -/
theorem foldl_add_line_totals (f : CartItem → Int) :
    ∀ (items : List CartItem) (init : Int),
      items.foldl (fun s i => s + f i) init = init + (items.map f).sum := by
  intro items
  induction items with
  | nil => intro init; simp
  | cons a rest ih =>
    intro init
    rw [List.foldl_cons, ih, List.map_cons, List.sum_cons]
    ring

/-- `totalCents` is the sum over cart lines of snapshot price times
quantity. -/
theorem totalCents_eq_sum (snap : List Product) (items : List CartItem) :
    totalCents snap items = (items.map (fun i => snapPrice snap i * i.quantity)).sum := by
  unfold totalCents
  rw [foldl_add_line_totals]
  ring

/-- The transaction loop appends one line-item row per cart line and
applies the per-line stock decrements; it touches nothing else. -/
theorem commitItems_spec (snap : List Product) (oid : Nat) :
    ∀ (items : List CartItem) (db : Db),
      commitItems snap oid items db =
        { db with
          orderItems := db.orderItems ++ items.map (mkOrderItem snap oid)
          products := items.foldl (fun ps i => decStock ps i.productId i.quantity) db.products } := by
  intro items
  induction items with
  | nil => intro db; simp [commitItems]
  | cons a rest ih =>
    intro db
    rw [commitItems, ih]
    simp

/-- Repeated per-line decrements amount to subtracting, from every
product, the total quantity the cart requests for it. -/
theorem foldl_decStock_eq_map (items : List CartItem) :
    ∀ ps : List Product,
      items.foldl (fun ps i => decStock ps i.productId i.quantity) ps =
        ps.map (fun p => { p with stock := p.stock - cartQtyOf items p.id }) := by
  induction items with
  | nil =>
    intro ps
    simp [cartQtyOf]
  | cons a rest ih =>
    intro ps
    rw [List.foldl_cons, ih]
    unfold decStock
    rw [List.map_map]
    apply List.map_congr_left
    intro p _
    by_cases hp : p.id = a.productId
    · simp [Function.comp, hp, cartQtyOf, Int.sub_sub]
    · have : (a.productId == p.id) = false := by
        simp [BEq.beq]
        exact fun h => hp h.symm
      simp [Function.comp, hp, cartQtyOf, this]

/-- **C4.** A successful checkout creates an order whose `totalCents`
is the sum of snapshot price times quantity over the cart, writes one
`OrderItem` per cart line carrying the snapshot price, and decrements
every product's stock by the quantity the cart requests for it. -/
theorem c4_checkout_success_effects (db : Db) (email : Option String)
    (items : List CartItem) (oid : Nat) (total : Int) (db' : Db)
    (h : checkout db email items = (CheckoutResult.ok oid total, db')) :
    oid = db.nextOrderId ∧
    total = (items.map (fun i => snapPrice db.products i * i.quantity)).sum ∧
    db'.orders = { id := oid, userEmail := email, totalCents := total } :: db.orders ∧
    db'.orderItems = db.orderItems ++ items.map (mkOrderItem db.products oid) ∧
    db'.products = db.products.map
      (fun p => { p with stock := p.stock - cartQtyOf items p.id }) := by
  cases hempty : items.isEmpty with
  | true => simp [checkout, hempty] at h
  | false =>
    cases hv : validateItems db.products items with
    | some msg => simp [checkout, hempty, hv] at h
    | none =>
      simp [checkout, hempty, hv, checkoutCommit, commitItems_spec] at h
      obtain ⟨⟨hoid, htotal⟩, hdb⟩ := h
      subst hoid htotal
      refine ⟨rfl, (totalCents_eq_sum db.products items).symm ▸ rfl, ?_, ?_, ?_⟩ <;>
        simp [← hdb, foldl_decStock_eq_map]

/-- Witness for **C4**, the spec's example: a cart of two units of
`P1` (stock 5, price 1000) yields an order with `totalCents = 2000` and
leaves `P1.stock = 3`. -/
theorem c4_checkout_success_effects_witness :
    (checkout dbExample none [{ productId := "P1", quantity := 2 }]).1 =
      CheckoutResult.ok 1 2000 ∧
    stockOf (checkout dbExample none [{ productId := "P1", quantity := 2 }]).2.products "P1" =
      some 3 := by
  have h := c4_checkout_success_effects dbExample none [{ productId := "P1", quantity := 2 }]
      1 2000 (checkout dbExample none [{ productId := "P1", quantity := 2 }]).2 rfl
  refine ⟨rfl, ?_⟩
  rw [stockOf, h.2.2.2.2]
  rfl

/-- Membership in an insertion step. -/
theorem mem_insertByCreatedAt {b p : Product} :
    ∀ {l : List Product}, b ∈ insertByCreatedAt p l → b = p ∨ b ∈ l := by
  intro l
  induction l with
  | nil =>
    intro h
    rw [insertByCreatedAt] at h
    exact Or.inl (List.mem_singleton.mp h)
  | cons x xs ih =>
    intro h
    rw [insertByCreatedAt] at h
    by_cases hx : x.createdAt ≤ p.createdAt
    · rw [if_pos hx] at h
      rcases List.mem_cons.mp h with rfl | h2
      · exact Or.inl rfl
      · exact Or.inr h2
    · rw [if_neg hx] at h
      rcases List.mem_cons.mp h with rfl | h2
      · exact Or.inr (List.mem_cons_self _ _)
      · rcases ih h2 with rfl | h3
        · exact Or.inl rfl
        · exact Or.inr (List.mem_cons_of_mem _ h3)

/-- Insertion keeps the list sorted by `createdAt` descending. -/
theorem pairwise_insertByCreatedAt {p : Product} {l : List Product}
    (h : l.Pairwise (fun a b => b.createdAt ≤ a.createdAt)) :
    (insertByCreatedAt p l).Pairwise (fun a b => b.createdAt ≤ a.createdAt) := by
  induction l with
  | nil => simp [insertByCreatedAt]
  | cons x xs ih =>
    rw [List.pairwise_cons] at h
    obtain ⟨hx_all, hxs⟩ := h
    rw [insertByCreatedAt]
    by_cases hx : x.createdAt ≤ p.createdAt
    · rw [if_pos hx, List.pairwise_cons]
      refine ⟨?_, List.pairwise_cons.mpr ⟨hx_all, hxs⟩⟩
      intro b hb
      rcases List.mem_cons.mp hb with rfl | hmem
      · exact hx
      · exact le_trans (hx_all b hmem) hx
    · rw [if_neg hx, List.pairwise_cons]
      refine ⟨?_, ih hxs⟩
      intro b hb
      rcases mem_insertByCreatedAt hb with rfl | hmem
      · exact le_of_not_le hx
      · exact hx_all b hmem

/-- The sort is sorted by `createdAt` descending. -/
theorem pairwise_sortByCreatedAtDesc :
    ∀ l : List Product,
      (sortByCreatedAtDesc l).Pairwise (fun a b => b.createdAt ≤ a.createdAt) := by
  intro l
  induction l with
  | nil => simp [sortByCreatedAtDesc]
  | cons p ps ih =>
    rw [sortByCreatedAtDesc]
    exact pairwise_insertByCreatedAt ih

/-- `max 1 ⌈t/L⌉` pages of size `L` cover all `t` rows. -/
theorem ceil_pages_cover (t L : ℕ) (hL : 0 < L) :
    t ≤ max 1 ((t + L - 1) / L) * L := by
  rcases Nat.eq_zero_or_pos t with rfl | ht
  · exact Nat.zero_le _
  have h1 : 1 ≤ (t + L - 1) / L := by
    rw [Nat.one_le_div_iff hL]
    omega
  rw [Nat.max_eq_right h1, Nat.mul_comm]
  have hdm := Nat.div_add_mod (t + L - 1) L
  have hmod : (t + L - 1) % L < L := Nat.mod_lt _ hL
  generalize hr : (t + L - 1) % L = r at hdm hmod
  generalize hm : L * ((t + L - 1) / L) = m at hdm ⊢
  omega

/-- `max 1 ⌈t/L⌉` is the least page count `≥ 1` that covers `t` rows. -/
theorem ceil_pages_least (t L n : ℕ) (hL : 0 < L) (hn : 1 ≤ n) (h : t ≤ n * L) :
    max 1 ((t + L - 1) / L) ≤ n := by
  refine Nat.max_le.mpr ⟨hn, ?_⟩
  rw [Nat.div_le_iff_le_mul_add_pred hL]
  rw [Nat.mul_comm] at h
  generalize hm : L * n = m at h ⊢
  omega

/-- **C5.** The product listing clamps `limit` to `[1, 24]` with
default 9, returns at most `limit` items, computes `pageCount` as the
least page count `≥ 1` whose pages of size `limit` cover all matching
rows (i.e. `max(1, ceil(total/limit))`), and returns the page sorted by
creation time descending. -/
theorem c5_products_pagination (db : Db) (query : ProductsQuery) :
    (listProducts db query).limit = min 24 (max 1 (query.limit.getD 9)) ∧
    1 ≤ (listProducts db query).limit ∧
    (listProducts db query).limit ≤ 24 ∧
    (listProducts db query).items.length ≤ (listProducts db query).limit.toNat ∧
    (listProducts db query).pageCount =
      max 1 (((listProducts db query).total + (listProducts db query).limit.toNat - 1) /
        (listProducts db query).limit.toNat) ∧
    (listProducts db query).total ≤
      (listProducts db query).pageCount * (listProducts db query).limit.toNat ∧
    (∀ n : ℕ, 1 ≤ n →
      (listProducts db query).total ≤ n * (listProducts db query).limit.toNat →
      (listProducts db query).pageCount ≤ n) ∧
    (listProducts db query).items.Pairwise (fun a b => b.createdAt ≤ a.createdAt) := by
  have hlim1 : (1 : Int) ≤ min 24 (max 1 (query.limit.getD 9)) :=
    le_min (by norm_num) (le_max_left _ _)
  have hlimN : 0 < (min 24 (max 1 (query.limit.getD 9))).toNat := by omega
  refine ⟨rfl, hlim1, min_le_left _ _, ?_, rfl, ?_, ?_, ?_⟩
  · show (List.take _ _).length ≤ _
    rw [List.length_take]
    exact min_le_left _ _
  · exact ceil_pages_cover _ _ hlimN
  · intro n hn h
    exact ceil_pages_least _ _ n hlimN hn h
  · exact (pairwise_sortByCreatedAtDesc _).sublist
      ((List.take_sublist _ _).trans (List.drop_sublist _ _))

/-- Witness for **C5**: on the one-product store with all parameters
absent, `limit` is 9, the page holds at most 9 rows, and the least
covering page count is at most 5. -/
theorem c5_products_pagination_witness :
    (listProducts dbFixture { q := none, category := none, page := none, limit := none }).pageCount
      ≤ 5 :=
  (c5_products_pagination dbFixture
      { q := none, category := none, page := none, limit := none }).2.2.2.2.2.2.1
    5 (by decide) (by decide)

/-- A kept slug character is not the separator. -/
theorem slugChar_ne_dash {c : Char} (h : slugChar c = true) : c ≠ '-' := by
  intro hEq
  rw [hEq] at h
  exact absurd h (by decide)

/-- After a separator was just emitted, the collapse continues with a
kept character (or nothing). -/
theorem collapseAux_head_inRun :
    ∀ {l : List Char} {d : Char},
      (collapseAux true l).head? = some d → slugChar d = true := by
  intro l
  induction l with
  | nil => intro d h; cases h
  | cons c cs ih =>
    intro d h
    rw [collapseAux] at h
    by_cases hc : slugChar c
    · rw [if_pos hc] at h
      cases h
      exact hc
    · rw [if_neg hc, if_pos rfl] at h
      exact ih h

/-- The collapsed list never holds two adjacent separators. -/
theorem collapseAux_chain :
    ∀ (l : List Char) (flag : Bool),
      (collapseAux flag l).Chain' (fun a b => ¬(a = '-' ∧ b = '-')) := by
  intro l
  induction l with
  | nil => intro flag; rw [collapseAux]; exact List.chain'_nil
  | cons c cs ih =>
    intro flag
    rw [collapseAux]
    by_cases hc : slugChar c
    · rw [if_pos hc]
      refine List.chain'_cons'.mpr ⟨?_, ih false⟩
      intro y _
      exact fun hb => slugChar_ne_dash hc hb.1
    · rw [if_neg hc]
      cases flag with
      | true => rw [if_pos rfl]; exact ih true
      | false =>
        rw [if_neg Bool.false_ne_true]
        refine List.chain'_cons'.mpr ⟨?_, ih true⟩
        intro y hy
        exact fun hb => slugChar_ne_dash (collapseAux_head_inRun hy) hb.2

/-- Every character the collapse emits is kept or the separator. -/
theorem collapseAux_mem :
    ∀ {l : List Char} {flag : Bool} {c : Char},
      c ∈ collapseAux flag l → slugChar c = true ∨ c = '-' := by
  intro l
  induction l with
  | nil => intro flag c h; rw [collapseAux] at h; cases h
  | cons a as ih =>
    intro flag c h
    rw [collapseAux] at h
    by_cases ha : slugChar a
    · rw [if_pos ha] at h
      rcases List.mem_cons.mp h with rfl | hmem
      · exact Or.inl ha
      · exact ih hmem
    · rw [if_neg ha] at h
      cases flag with
      | true => rw [if_pos rfl] at h; exact ih h
      | false =>
        rw [if_neg Bool.false_ne_true] at h
        rcases List.mem_cons.mp h with rfl | hmem
        · exact Or.inr rfl
        · exact ih hmem

/-- Dropping the lead dash from a no-double-dash list leaves a list
that does not start with a dash. -/
theorem dropLeadDash_head {l : List Char}
    (h : l.Chain' (fun a b => ¬(a = '-' ∧ b = '-'))) :
    (dropLeadDash l).head? ≠ some '-' := by
  cases l with
  | nil => intro hc; cases hc
  | cons c t =>
    rw [dropLeadDash]
    by_cases hc : c = '-'
    · rw [if_pos hc]
      intro hhead
      rcases t with _ | ⟨d, t'⟩
      · cases hhead
      · have hd : d = '-' := by
          cases hhead
          rfl
        have := (List.chain'_cons'.mp h).1 d rfl
        exact this ⟨hc, hd⟩
    · rw [if_neg hc]
      intro hhead
      cases hhead
      exact hc rfl

/-- Dropping the lead dash preserves the no-double-dash chain. -/
theorem dropLeadDash_chain {l : List Char}
    (h : l.Chain' (fun a b => ¬(a = '-' ∧ b = '-'))) :
    (dropLeadDash l).Chain' (fun a b => ¬(a = '-' ∧ b = '-')) := by
  cases l with
  | nil => exact List.chain'_nil
  | cons c t =>
    rw [dropLeadDash]
    by_cases hc : c = '-'
    · rw [if_pos hc]
      exact (List.chain'_cons'.mp h).2
    · rw [if_neg hc]
      exact h

/-- Dropping the lead dash removes no new characters. -/
theorem dropLeadDash_mem {l : List Char} {c : Char}
    (h : c ∈ dropLeadDash l) : c ∈ l := by
  cases l with
  | nil => cases h
  | cons a t =>
    rw [dropLeadDash] at h
    by_cases ha : a = '-'
    · rw [if_pos ha] at h
      exact List.mem_cons_of_mem _ h
    · rw [if_neg ha] at h
      exact h

/-- Unfolding `dropTrailDash` when the reversed list is nonempty. -/
theorem dropTrailDash_eq {l : List Char} {c : Char} {t : List Char}
    (hr : l.reverse = c :: t) :
    dropTrailDash l = if c = '-' then t.reverse else l := by
  unfold dropTrailDash
  rw [hr]

/-- Unfolding `dropTrailDash` on an empty list. -/
theorem dropTrailDash_eq_nil {l : List Char} (hr : l.reverse = []) :
    dropTrailDash l = l := by
  unfold dropTrailDash
  rw [hr]

/-- Dropping the trailing dash keeps the head when one remains. -/
theorem dropTrailDash_head {l : List Char} {d : Char}
    (h : (dropTrailDash l).head? = some d) : l.head? = some d := by
  cases hr : l.reverse with
  | nil => rw [dropTrailDash_eq_nil hr] at h; exact h
  | cons c t =>
    rw [dropTrailDash_eq hr] at h
    by_cases hc : c = '-'
    · rw [if_pos hc] at h
      have hl : l = t.reverse ++ [c] := by
        rw [← List.reverse_reverse l, hr, List.reverse_cons]
      rw [hl, List.head?_append, h]
      rfl
    · rw [if_neg hc] at h
      exact h

/-- Dropping the trailing dash removes no new characters. -/
theorem dropTrailDash_mem {l : List Char} {c : Char}
    (h : c ∈ dropTrailDash l) : c ∈ l := by
  cases hr : l.reverse with
  | nil => rw [dropTrailDash_eq_nil hr] at h; exact h
  | cons a t =>
    rw [dropTrailDash_eq hr] at h
    by_cases ha : a = '-'
    · rw [if_pos ha] at h
      have hl : l = t.reverse ++ [a] := by
        rw [← List.reverse_reverse l, hr, List.reverse_cons]
      rw [hl]
      exact List.mem_append_left _ h
    · rw [if_neg ha] at h
      exact h

/-- Dropping the trailing dash preserves the no-double-dash chain. -/
theorem dropTrailDash_chain {l : List Char}
    (h : l.Chain' (fun a b => ¬(a = '-' ∧ b = '-'))) :
    (dropTrailDash l).Chain' (fun a b => ¬(a = '-' ∧ b = '-')) := by
  cases hr : l.reverse with
  | nil => rw [dropTrailDash_eq_nil hr]; exact h
  | cons a t =>
    rw [dropTrailDash_eq hr]
    by_cases ha : a = '-'
    · rw [if_pos ha]
      have hl : l = t.reverse ++ [a] := by
        rw [← List.reverse_reverse l, hr, List.reverse_cons]
      exact h.prefix ⟨[a], hl.symm⟩
    · rw [if_neg ha]
      exact h

/-- A no-double-dash list does not end in a dash after the trailing
trim. -/
theorem dropTrailDash_getLast {l : List Char}
    (h : l.Chain' (fun a b => ¬(a = '-' ∧ b = '-'))) :
    (dropTrailDash l).getLast? ≠ some '-' := by
  have hrev : l.reverse.Chain' (fun a b => ¬(a = '-' ∧ b = '-')) :=
    List.chain'_reverse.mpr (h.imp fun a b hab => fun hb => hab ⟨hb.2, hb.1⟩)
  cases hr : l.reverse with
  | nil =>
    rw [dropTrailDash_eq_nil hr, ← List.head?_reverse, hr]
    intro hc
    cases hc
  | cons a t =>
    rw [hr] at hrev
    rw [dropTrailDash_eq hr]
    by_cases ha : a = '-'
    · rw [if_pos ha, List.getLast?_reverse]
      intro hc
      have := (List.chain'_cons'.mp hrev).1 '-' hc
      exact this ⟨ha, rfl⟩
    · rw [if_neg ha]
      intro hc
      rw [← List.head?_reverse, hr] at hc
      cases hc
      exact ha rfl

/-- The slug normalization really produces a normalized slug: only
`[a-z0-9]` and dashes, no dash runs, no dash at either end. -/
theorem makeSlug_normalized (s : String) : SlugNormalized (makeSlug s) := by
  have htl : (makeSlug s).toList =
      dropTrailDash (dropLeadDash (collapseRuns (s.toList.map Char.toLower))) := rfl
  have hchain0 : (collapseRuns (s.toList.map Char.toLower)).Chain'
      (fun a b => ¬(a = '-' ∧ b = '-')) :=
    collapseAux_chain (s.toList.map Char.toLower) false
  have hchain1 := dropLeadDash_chain hchain0
  unfold SlugNormalized
  rw [htl]
  refine ⟨?_, ?_, ?_, ?_⟩
  · intro c hc
    exact collapseAux_mem (dropLeadDash_mem (dropTrailDash_mem hc))
  · exact dropTrailDash_chain hchain1
  · intro hc
    exact dropLeadDash_head hchain0 (dropTrailDash_head hc)
  · exact dropTrailDash_getLast hchain1

/-- **C6 counterexample.** The claim says a cleared slug on update is
re-derived from the product's name.  Clearing the slug without sending
a name stores `""`: the code derives from `req.body.name || ''`, not
from the stored row, whose name "Basic Tee" normalizes to "basic-tee". -/
theorem c6_cleared_slug_counterexample :
    updateProduct [] { emptyBody with slug := .val "" } teeFixture =
      Except.ok { teeFixture with slug := "" } ∧
    makeSlug teeFixture.name = "basic-tee" ∧
    ("" : String) ≠ makeSlug teeFixture.name := by
  refine ⟨rfl, rfl, by decide⟩

/-- **C6 (amended).** On admin create without a truthy slug the stored
slug is the normalization of the product's name.  On admin update with
the slug explicitly cleared the stored slug is the normalization of the
`name` field of the same request body — the empty string when the body
carries no name — not of the stored product name.  The normalization
itself yields only lowercase alphanumerics and single separators, with
separators trimmed at both ends. -/
theorem c6_slug_derivation (cats : List Category) (cbody ubody : ProductBody)
    (newId : String) (now : Nat) (p p' prod : Product) (s : String) :
    (createProduct cats cbody newId now = Except.ok prod →
      (cbody.slug = .undef ∨ cbody.slug = .null ∨ cbody.slug = .val "") →
      prod.slug = makeSlug prod.name) ∧
    (ubody.slug = .val "" → updateProduct cats ubody p = Except.ok p' →
      p'.slug = makeSlug (ubody.name.getVal "")) ∧
    SlugNormalized (makeSlug s) := by
  refine ⟨?_, ?_, makeSlug_normalized s⟩
  · intro h hslug
    unfold createProduct at h
    split at h
    · cases h
    · cases hfind : cats.find? (fun k => k.slug == cbody.categorySlug.getVal "") with
      | none => rw [hfind] at h; cases h
      | some cat =>
        rw [hfind] at h
        injection h with h
        rw [← h]
        rcases hslug with hs | hs | hs <;> simp [hs]
  · intro hs h
    unfold updateProduct at h
    have hslug : ∀ q : Product, q = patchFields ubody p → q.slug = makeSlug (ubody.name.getVal "") := by
      intro q hq
      rw [hq]
      simp [patchFields, hs]
    cases hcs : ubody.categorySlug with
    | undef =>
      rw [hcs] at h
      injection h with h
      exact hslug p' h.symm
    | null =>
      rw [hcs] at h
      injection h with h
      exact hslug p' h.symm
    | val c =>
      simp only [hcs] at h
      by_cases hc : (c == "") = true
      · rw [if_pos hc] at h
        injection h with h
        exact hslug p' h.symm
      · rw [if_neg hc] at h
        cases hfind : cats.find? (fun k => k.slug == c) with
        | none => rw [hfind] at h; cases h
        | some cat =>
          rw [hfind] at h
          injection h with h
          rw [← h]
          simp [patchFields, hs]

/-- Witness for **C6**: creating "Basic Tee" without a slug stores
"basic-tee"; an update clearing the slug with no name in the body
stores the normalization of the empty string; and a sample
normalization output is normalized. -/
theorem c6_slug_derivation_witness :
    ("basic-tee" : String) = makeSlug "Basic Tee" ∧
    ("" : String) = makeSlug "" ∧
    SlugNormalized (makeSlug "a b") := by
  have h := c6_slug_derivation [clothingCatW] createBodyW clearSlugBody "N1" 5 teeFixture { teeFixture with slug := "" } createdTeeW "a b"
  exact ⟨h.1 rfl (Or.inl rfl), h.2.1 rfl rfl, h.2.2⟩

/-- **C8.** Registering an unused email with a non-empty password
succeeds, and a subsequent login with the same credentials succeeds and
yields a session token that `readUserFromReq` resolves to the very user
row created at registration. -/
theorem c8_register_login_roundtrip (db : AuthDb) (email password : String)
    (he : (email == "") = false) (hp : (password == "") = false)
    (hfresh : findUserByEmail db email = none) :
    (register db email password).1 =
      AuthResult.success db.nextUserId (strToLower email) "USER" (signToken db.nextUserId) ∧
    login (register db email password).2 email password =
      AuthResult.success db.nextUserId (strToLower email) "USER" (signToken db.nextUserId) ∧
    readUserFromReq (register db email password).2 (some (signToken db.nextUserId)) =
      some { id := db.nextUserId, email := strToLower email,
             passwordHash := bcryptHash password, role := "USER" } := by
  have hreg : register db email password =
      ((.success db.nextUserId (strToLower email) "USER" (signToken db.nextUserId)),
        { users := { id := db.nextUserId, email := strToLower email,
                     passwordHash := bcryptHash password, role := "USER" } :: db.users,
          nextUserId := db.nextUserId + 1 }) := by
    unfold register
    rw [he, hp, hfresh]
    rfl
  rw [hreg]
  refine ⟨rfl, ?_, ?_⟩
  · unfold login findUserByEmail
    simp [List.find?_cons, bcryptCompare]
  · unfold readUserFromReq
    simp [List.find?_cons, signToken]

/-- Witness for **C8**: registering `NEW@Example.com` in the empty
store and logging back in resolves the cookie to user 1. -/
theorem c8_register_login_roundtrip_witness :
    (register { users := [], nextUserId := 1 } "NEW@Example.com" "secret").1 =
      AuthResult.success 1 (strToLower "NEW@Example.com") "USER" (signToken 1) ∧
    login (register { users := [], nextUserId := 1 } "NEW@Example.com" "secret").2
        "NEW@Example.com" "secret" =
      AuthResult.success 1 (strToLower "NEW@Example.com") "USER" (signToken 1) ∧
    readUserFromReq (register { users := [], nextUserId := 1 } "NEW@Example.com" "secret").2
        (some (signToken 1)) =
      some { id := 1, email := strToLower "NEW@Example.com",
             passwordHash := bcryptHash "secret", role := "USER" } :=
  c8_register_login_roundtrip { users := [], nextUserId := 1 } "NEW@Example.com" "secret"
    rfl rfl rfl

/-- **C9.** Admin product update has partial-patch semantics: the body
`{stock: 5}` updates exactly the stock, and any field absent from the
request body is unchanged in the updated row. -/
theorem c9_update_partial_patch (cats : List Category) (p p' : Product)
    (body : ProductBody) :
    updateProduct cats stockOnlyBody p = Except.ok { p with stock := 5 } ∧
    (updateProduct cats body p = Except.ok p' →
      (body.name = .undef → p'.name = p.name) ∧
      (body.slug = .undef → p'.slug = p.slug) ∧
      (body.description = .undef → p'.description = p.description) ∧
      (body.priceCents = .undef → p'.priceCents = p.priceCents) ∧
      (body.imageUrl = .undef → p'.imageUrl = p.imageUrl) ∧
      (body.stock = .undef → p'.stock = p.stock) ∧
      (body.categorySlug = .undef → p'.categoryId = p.categoryId)) := by
  constructor
  · rfl
  · intro h
    unfold updateProduct at h
    cases hcs : body.categorySlug with
    | undef =>
      rw [hcs] at h
      injection h with h
      rw [← h]
      exact ⟨fun hf => by simp [patchFields, hf], fun hf => by simp [patchFields, hf],
        fun hf => by simp [patchFields, hf], fun hf => by simp [patchFields, hf],
        fun hf => by simp [patchFields, hf], fun hf => by simp [patchFields, hf],
        fun hf => by simp [patchFields, hf]⟩
    | null =>
      rw [hcs] at h
      injection h with h
      rw [← h]
      exact ⟨fun hf => by simp [patchFields, hf], fun hf => by simp [patchFields, hf],
        fun hf => by simp [patchFields, hf], fun hf => by simp [patchFields, hf],
        fun hf => by simp [patchFields, hf], fun hf => by simp [patchFields, hf],
        fun hf => by simp [patchFields, hf]⟩
    | val c =>
      simp only [hcs] at h
      by_cases hc : (c == "") = true
      · rw [if_pos hc] at h
        injection h with h
        rw [← h]
        exact ⟨fun hf => by simp [patchFields, hf], fun hf => by simp [patchFields, hf],
          fun hf => by simp [patchFields, hf], fun hf => by simp [patchFields, hf],
          fun hf => by simp [patchFields, hf], fun hf => by simp [patchFields, hf],
          fun hf => by cases hf⟩
      · rw [if_neg hc] at h
        cases hfind : cats.find? (fun k => k.slug == c) with
        | none => rw [hfind] at h; cases h
        | some cat =>
          rw [hfind] at h
          injection h with h
          rw [← h]
          exact ⟨fun hf => by simp [patchFields, hf], fun hf => by simp [patchFields, hf],
            fun hf => by simp [patchFields, hf], fun hf => by simp [patchFields, hf],
            fun hf => by simp [patchFields, hf], fun hf => by simp [patchFields, hf],
            fun hf => by cases hf⟩

/-- Witness for **C9**: updating the fixture with `{stock: 5}` yields
exactly the fixture with stock 5, its name untouched. -/
theorem c9_update_partial_patch_witness :
    updateProduct [] stockOnlyBody teeFixture = Except.ok { teeFixture with stock := 5 } ∧
    ({ teeFixture with stock := 5 } : Product).name = teeFixture.name := by
  have h := c9_update_partial_patch [] teeFixture { teeFixture with stock := 5 } stockOnlyBody
  exact ⟨h.1, (h.2 h.1).1 rfl⟩

end Store
